import Mathlib

/-!
Verification development for the parameta library (pval / dval / metatype
wrappers, the val / s_val / ps_val and metavalue / metastatic / metaconst
classification concepts, and the metadata accessor mixin).

The C++ sources are shallowly embedded:
  * `CType` models the fragment of C++ types the headers inspect
    (scalars, class types, functions, arrays, pointers, const, lvalue refs).
  * `Shape` models the compile-time observable shape of a candidate class
    type Q, exactly the features the concepts query (presence and type of
    Q::value_type, Q::value, a const no-arg call operator, convertibility,
    a type alias, emptiness and NTTP-usability of Q's value).
  * Wrapper templates pval / dval / metatype and the metaget mixin become
    executable functions over lists of modelled template arguments; a C++
    substitution failure or static_assert failure is modelled by `none`.
-/

/-- Model of the C++ types inspected by the parameta headers.
`scalar n` and `cls n` are distinct scalar / class types indexed by `n`;
`fn r` is the no-argument function type returning `r`; `array t n` the
array type `t[n]`; `ptr`, `const`, `ref` the usual type constructors
(`ref` is an lvalue reference). -/
inductive CType : Type where
  | scalar : Nat → CType
  | voidT : CType
  | cls : Nat → CType
  | fn : CType → CType
  | array : CType → Nat → CType
  | ptr : CType → CType
  | const : CType → CType
  | ref : CType → CType
deriving DecidableEq, Repr

/-- `std::is_reference_v` on the model. -/
def CType.isRef : CType → Bool
  | .ref _ => true
  | _ => false

/-- `std::remove_reference_t` on the model. -/
def CType.removeRef : CType → CType
  | .ref t => t
  | t => t

/-- `std::is_const_v` (top-level const) on the model. -/
def CType.isConstQ : CType → Bool
  | .const _ => true
  | _ => false

/-- `std::remove_cv_t` on the model (strips leading const layers). -/
def CType.removeCv : CType → CType
  | .const t => CType.removeCv t
  | t => t

/-- `std::remove_cvref_t` on the model. -/
def CType.removeCvref (t : CType) : CType := t.removeRef.removeCv

/-- `std::is_function_v` on the model. -/
def CType.isFunT : CType → Bool
  | .fn _ => true
  | _ => false

/-- `std::is_array_v` on the model. -/
def CType.isArrayT : CType → Bool
  | .array _ _ => true
  | _ => false

/-- `impl::const_if_reference<T>` (parameta.hpp lines 167-170):
true for non-reference `T`, else true iff the referred-to type is const. -/
def const_if_reference (t : CType) : Bool :=
  !t.isRef || t.removeRef.isConstQ

/-- Whether a type may be the target of a reference (anything but void). -/
def validRefTarget : CType → Bool
  | .voidT => false
  | .const t => validRefTarget t
  | _ => true

/-- Whether a type is valid as the declared type of a
`template <decltype(auto)>` non-type template parameter: scalars,
pointers, (structural) class types and lvalue references to non-void
types are accepted; function, array and void types are not (functions
and arrays can only be passed by reference). -/
def validNTTP : CType → Bool
  | .ref u => validRefTarget u
  | .const u => validNTTP u
  | .scalar _ => true
  | .ptr _ => true
  | .cls _ => true
  | .fn _ => false
  | .array _ _ => false
  | .voidT => false

/-- Whether a type is valid as the declared type of a non-static data
member (`value_type value;` in dval): not void, not a function type;
references and arrays of valid element type are allowed. -/
def validDataMember : CType → Bool
  | .voidT => false
  | .fn _ => false
  | .const u => validDataMember u
  | .array u _ => validDataMember u
  | .ref u => validRefTarget u
  | _ => true

/-- Whether a type is valid as a function return type (the wrappers
declare `value_type operator()() const`): arrays and function types
cannot be returned; references to non-void types can. -/
def validReturnType : CType → Bool
  | .array _ _ => false
  | .fn _ => false
  | .const u => validReturnType u
  | .ref u => validRefTarget u
  | _ => true

/-- The type of the call expression of a function declared to return `t`
(models `impl::as_return_t`, parameta_traits.hpp line 147): references
are preserved, class types keep their cv-qualification, and all other
(non-class, non-reference) return types lose top-level cv. -/
def asReturn (t : CType) : CType :=
  match t with
  | .ref u => .ref u
  | .const u =>
    match u.removeCv with
    | .cls c => .const (.cls c)
    | w => w
  | t => t

/-- `std::decay_t` on the model: arrays decay to pointers to their
element type, function types to function pointers, references are
dropped first and top-level cv is removed. -/
def decayT : CType → CType
  | .ref u => decayT u
  | .const u => decayT u
  | .array u _ => .ptr u
  | .fn r => .ptr (.fn r)
  | t => t

/-- Compile-time observable shape of a candidate class type `Q`, exactly
the features queried by the concepts in parameta.hpp and
parameta_traits.hpp:
* `valueType`: the alias `Q::value_type` if declared;
* `valueMem`: the declared type of the member `Q::value` if declared
  (for `static constexpr value_type value` this is `const value_type`);
* `callOp`: the declared return type of `Q::operator()() const` taking
  no arguments, if such an operator exists;
* `conv` / `convConst`: the types `U` with `is_convertible_v<Q, U>` /
  `is_convertible_v<Q const, U>` (conversion to void is never possible
  and is handled separately);
* `hasTypeAlias`: whether `Q::type` is declared;
* `isEmpty`: `std::is_empty_v<Q>`;
* `structuralCall`: whether `Q{}()` is a constant expression usable to
  initialize a `template <decltype(auto)>` parameter
  (`impl::structural<Q{}()>` / `impl::structural_functor<Q{}>`);
* `autoStructuralCall`: whether `Q{}()` can initialize a
  `template <auto>` parameter (`impl::auto_structural<Q{}()>`);
* `autoStructuralElem0`: whether `element0(Q{}())` can initialize a
  `template <auto>` parameter (`impl::structural_value_functor<Q{}>`). -/
structure Shape : Type where
  valueType : Option CType
  valueMem : Option CType
  callOp : Option CType
  conv : List CType
  convConst : List CType
  hasTypeAlias : Bool
  isEmpty : Bool
  structuralCall : Bool
  autoStructuralCall : Bool
  autoStructuralElem0 : Bool
deriving DecidableEq, Repr

/-- `impl::vfunctor<L>` (parameta.hpp lines 161-162) and
`impl::has_call_op_const<L>` (parameta_traits.hpp lines 133-134):
`L` has a const-qualified no-argument call operator. -/
def vfunctor (q : Shape) : Bool := q.callOp.isSome

/-- `impl::functor_return_t<L>` (parameta.hpp lines 176-188): the
declared return type of `L::operator()() const` if the call operator is
present, else the sentinel `void`. -/
def functorReturnT (q : Shape) : CType :=
  match q.callOp with
  | some r => r
  | none => .voidT

/-- `impl::functor_return_or_void<L>` (parameta_traits.hpp lines
118-127): the type of the call expression `declval<L const>()()` if the
call operator exists, else the sentinel `void`. -/
def functorReturnOrVoid (q : Shape) : CType :=
  match q.callOp with
  | some r => asReturn r
  | none => .voidT

/-- `std::is_convertible_v` to target `t` given the conversion-target
list `l` of the source shape; conversion to (cv) void from a class type
is always false. -/
def convertibleTo (l : List CType) (t : CType) : Bool :=
  match t.removeCv with
  | .voidT => false
  | _ => decide (t ∈ l)

/-- `impl::value_return_type<Q>` (parameta_traits.hpp lines 148-149):
`Q::value_type` as a return type, i.e. `asReturn` of the alias. -/
def valueReturnType (vt : CType) : CType := asReturn vt

/-- The `val` concept (parameta.hpp lines 216-223) at its default `V`
argument: `Q::value_type` exists and agrees (cvref-stripped) with the
detected functor return type; `&Q::operator()` is exactly of type
`value_type (Q::*)() const`; `Q::value` is declared of type
`value_type` possibly with added top-level const; and `Q` is
implicitly convertible to `value_type`. -/
def valC (q : Shape) : Bool :=
  match q.valueType, q.valueMem, q.callOp with
  | some vt, some mt, some rt =>
    decide ((functorReturnT q).removeCvref = vt.removeCvref)
    && decide (rt = vt)
    && (decide (vt = mt.removeCv) || decide (vt = mt))
    && convertibleTo q.conv vt
  | _, _, _ => false

/-- The `s_val` concept (parameta.hpp lines 229-233): a `val` that is an
empty type whose default-constructed call result is usable as a
`template <decltype(auto)>` argument. -/
def s_valC (q : Shape) : Bool :=
  valC q && q.isEmpty && q.structuralCall

/-- The `ps_val` concept (parameta.hpp lines 239-242): an `s_val` whose
call result is usable as a `template <auto>` argument. -/
def ps_valC (q : Shape) : Bool :=
  s_valC q && q.autoStructuralCall

/-- The `typ` concept (parameta.hpp lines 325-328): has a member alias
`type`, is an empty class, and has no const no-arg call operator. -/
def typC (q : Shape) : Bool :=
  q.hasTypeAlias && q.isEmpty && !vfunctor q

/-- The `metavalue` concept (parameta_traits.hpp lines 209-216) at its
default `V` argument: `Q::value_type` agrees (cvref-stripped) with the
detected call-expression type; the call-expression type of
`Q::value_type` as a return type equals the detected one; the `value`
member check; and `Q const` is implicitly convertible to `value_type`. -/
def metavalueC (q : Shape) : Bool :=
  match q.valueType, q.valueMem with
  | some vt, some mt =>
    decide ((functorReturnOrVoid q).removeCvref = vt.removeCvref)
    && decide (valueReturnType vt = functorReturnOrVoid q)
    && (decide (vt = mt.removeCv) || decide (vt = mt))
    && convertibleTo q.convConst vt
  | _, _ => false

/-- The `metastatic` concept (parameta_traits.hpp lines 242-246):
a `metavalue` that is empty and whose `Q{}()` initializes a
`template <decltype(auto)>` parameter. -/
def metastaticC (q : Shape) : Bool :=
  metavalueC q && q.isEmpty && q.structuralCall

/-- The `metaconst` concept (parameta_traits.hpp lines 265-268):
a `metastatic` with `element0(Q{}())` valid as a `template <auto>`
argument. -/
def metaconstC (q : Shape) : Bool :=
  metastaticC q && q.autoStructuralElem0

/-- The `metatype` concept (parameta_traits.hpp lines 288-291): member
alias `type`, empty class, no const no-arg call operator. -/
def metatypeC (q : Shape) : Bool :=
  q.hasTypeAlias && q.isEmpty && !q.callOp.isSome

/-- Acceptability of the instantiation `pval<v, x...>` (parameta.hpp
lines 260-262): each template argument must have a type valid for a
`decltype(auto)` non-type template parameter, and the requires-clause
checks `impl::const_if_reference<decltype(v)>` on the primary value's
type only. `vt` is `decltype(v)`, `xts` the types of the `x...`. -/
def pvalInstOK (vt : CType) (xts : List CType) : Bool :=
  validNTTP vt && xts.all validNTTP && const_if_reference vt

/-- Validity of the class `dval<T, x...>` at a given `T` (parameta.hpp
lines 293-316): the requires-clause checks
`impl::const_if_reference<T>`, the member `value_type value;` needs `T`
to be a valid data-member type, and `operator()() const` and the
conversion operator need `T` to be a valid return type. -/
def dvalValid (t : CType) : Bool :=
  const_if_reference t && validDataMember t && validReturnType t

/-- Acceptability of the instantiation `dval<T, x...>`: the class body
must be valid at `T` and each trailing argument must be a valid
`decltype(auto)` non-type template parameter. -/
def dvalInstOK (t : CType) (xts : List CType) : Bool :=
  dvalValid t && xts.all validNTTP

/-- The deduction guide `template <typename T> dval(T const&) -> dval<T>`
(parameta.hpp line 317): deduction from an argument expression of type
`a` binds `T const&` to it, deducing `T` as `a` stripped of top-level
cv — with no array-to-pointer or function-to-pointer decay, since the
parameter is a reference. -/
def dvalDeduce (a : CType) : CType := a.removeCv

/-- Whether the expression `dval{e}` compiles for an argument expression
of type `a`: class template argument deduction via the deduction guide
followed by instantiation of the deduced `dval` specialization. -/
def dvalConstructOK (a : CType) : Bool := dvalValid (dvalDeduce a)

/-- The static wrapper `pval<v, x...>` (parameta.hpp lines 260-284),
with `v` the primary template argument and `xs` the trailing metadata
arguments; the argument values are modelled uniformly by `α`. -/
structure Pval (α : Type) : Type where
  v : α
  xs : List α
deriving DecidableEq, Repr

/-- `size(pval)` (parameta.hpp line 275): `1 + sizeof...(x)`. -/
def Pval.size {α : Type} (p : Pval α) : Nat := 1 + p.xs.length

/-- `get<I>(pval)` (parameta.hpp lines 277-283): requires
`I <= sizeof...(x)`; index 0 yields the primary value `v`, otherwise it
recurses as `get<I-1>(pval<(x)...>{})`, re-wrapping the metadata pack as
a pval whose primary value is the first metadata item. An instantiation
whose requires-clause fails (index past the end: the peeled wrapper has
run out of arguments) is modelled by `none`. -/
def Pval.get {α : Type} : Pval α → Nat → Option α
  | p, 0 => some p.v
  | p, i + 1 =>
    match p.xs with
    | [] => none
    | x :: t => Pval.get ⟨x, t⟩ i

/-- The type wrapper `metatype<T, x...>` (parameta.hpp lines 332-347):
the represented type `ty` plus trailing metadata arguments `xs`. -/
structure MetatypeW (α : Type) : Type where
  ty : CType
  xs : List α
deriving DecidableEq, Repr

/-- `size(metatype)` (parameta.hpp line 339): `1 + sizeof...(x)`. -/
def MetatypeW.size {α : Type} (m : MetatypeW α) : Nat := 1 + m.xs.length

/-- `get<I>(metatype)` (parameta.hpp lines 341-346): requires
`I > 0 && I <= sizeof...(x)`; in range it returns
`get<I-1>(pval<(x)...>{})`. -/
def MetatypeW.get {α : Type} (m : MetatypeW α) (i : Nat) : Option α :=
  if 0 < i ∧ i ≤ m.xs.length then
    match m.xs with
    | [] => none
    | x :: t => Pval.get ⟨x, t⟩ (i - 1)
  else none

/-- Index normalization in `metaget` (metadata_access.h line 38): a
negative index `k` is shifted by the metadata count `n`, a non-negative
one is kept. -/
def normIdx (n : Nat) (k : Int) : Int :=
  if k < 0 then k + n else k

/-- Single-index `metaget<K>()` of a wrapper whose metadata pack is
`xs` (metadata_access.h lines 25-48, `sizeof...(I) == 1` branch): a
`static_assert` rejects an empty metadata pack; the index is
normalized; a `static_assert` rejects a normalized index outside
`[0, sizeof...(x))`; index 0 yields `staticmeta<x0>` (modelled by its
encoded value), otherwise recursion proceeds on
`staticmeta<x...>::metaget<i-1>` whose metadata pack is the tail.
A failed `static_assert` (compile-time failure) is modelled by `none`. -/
def metaget1 {α : Type} : List α → Int → Option α
  | [], _ => none
  | x :: t, k =>
    if 0 ≤ normIdx (x :: t).length k ∧
        normIdx (x :: t).length k < ((x :: t).length : Int) then
      if normIdx (x :: t).length k = 0 then some x
      else metaget1 t (normIdx (x :: t).length k - 1)
    else none

/-- Pack expansion `f(I)...` over the index pack, where every expansion
must compile: all-or-nothing sequencing of the option results. -/
def mapOpt {α β : Type} (f : α → Option β) : List α → Option (List β)
  | [] => some []
  | a :: rest =>
    match f a, mapOpt f rest with
    | some b, some bs => some (b :: bs)
    | _, _ => none

/-- Full `metaget<I...>()` dispatch of a static wrapper whose metadata
pack is `xs` (metadata_access.h lines 25-48): empty metadata is
rejected; no indices yields `staticmeta<x...>` (the metadata re-wrapped
with `x0` as primary value); more than one index yields
`staticmeta<metaget<I>()()...>` — the projection of the single-index
results re-wrapped as a new static wrapper; one index defers to the
single-index computation, whose result is the one-argument wrapper
`staticmeta<xi>`. -/
def metagetM {α : Type} (xs : List α) (is : List Int) : Option (Pval α) :=
  if xs.length = 0 then none
  else
    match is with
    | [] =>
      match xs with
      | [] => none
      | x :: t => some ⟨x, t⟩
    | [k] => (metaget1 xs k).map (fun v => ⟨v, []⟩)
    | _ =>
      match mapOpt (metaget1 xs) is with
      | some (v :: vs) => some ⟨v, vs⟩
      | _ => none

/-- The recursive `get` on a pval computes positional indexing into the
full argument sequence `v, x...`, with `none` exactly out of range. -/
theorem Pval.get_eq {α : Type} :
    ∀ (p : Pval α) (i : Nat), p.get i = (p.v :: p.xs)[i]? := by
  intro p i
  induction i generalizing p with
  | zero => simp [Pval.get]
  | succ n ih =>
    match p with
    | ⟨v, []⟩ => simp [Pval.get]
    | ⟨v, x :: t⟩ =>
      show Pval.get ⟨x, t⟩ n = _
      rw [ih ⟨x, t⟩]
      simp

/-- `mapOpt` succeeds with a list of the same length. -/
theorem mapOpt_length {α β : Type} (f : α → Option β) :
    ∀ (l : List α) (bs : List β), mapOpt f l = some bs →
      bs.length = l.length := by
  intro l
  induction l with
  | nil =>
    intro bs h
    simp only [mapOpt, Option.some.injEq] at h
    simp [← h]
  | cons a rest ih =>
    intro bs h
    simp only [mapOpt] at h
    cases hfa : f a with
    | none => rw [hfa] at h; exact absurd h (by simp)
    | some b =>
      cases hrest : mapOpt f rest with
      | none => rw [hfa, hrest] at h; exact absurd h (by simp)
      | some bs2 =>
        rw [hfa, hrest] at h
        cases h
        simp [ih bs2 hrest]

/-- `mapOpt` computes pointwise: the `j`-th output is `f` of the `j`-th
input. -/
theorem mapOpt_get {α β : Type} (f : α → Option β) :
    ∀ (l : List α) (bs : List β), mapOpt f l = some bs →
      ∀ j : Nat, bs[j]? = (l[j]?).bind f := by
  intro l
  induction l with
  | nil =>
    intro bs h j
    simp only [mapOpt, Option.some.injEq] at h
    simp [← h]
  | cons a rest ih =>
    intro bs h j
    simp only [mapOpt] at h
    cases hfa : f a with
    | none => rw [hfa] at h; exact absurd h (by simp)
    | some b =>
      cases hrest : mapOpt f rest with
      | none => rw [hfa, hrest] at h; exact absurd h (by simp)
      | some bs2 =>
        rw [hfa, hrest] at h
        cases h
        cases j with
        | zero => simp [hfa]
        | succ n => simpa using ih bs2 hrest n

/-- Normalization is the identity on non-negative indices. -/
theorem normIdx_nonneg (n : Nat) (k : Int) (h : 0 ≤ k) : normIdx n k = k := by
  unfold normIdx
  rw [if_neg (by omega)]

/-- Normalization shifts a negative index up by the count. -/
theorem normIdx_neg (n : Nat) (k : Int) (h : k < 0) : normIdx n k = k + n := by
  unfold normIdx
  rw [if_pos h]

/-- Single-index `metaget` succeeds exactly on a normalized index inside
`[0, n)` where `n` is the metadata count. -/
theorem metaget1_isSome {α : Type} :
    ∀ (xs : List α) (k : Int),
      (metaget1 xs k).isSome =
        decide (0 ≤ normIdx xs.length k ∧
                normIdx xs.length k < (xs.length : Int)) := by
  intro xs
  induction xs with
  | nil =>
    intro k
    have h : ¬ (0 ≤ normIdx (List.length ([] : List α)) k ∧
        normIdx (List.length ([] : List α)) k < ((List.length ([] : List α)) : Int)) := by
      rintro ⟨h1, h2⟩
      simp only [List.length_nil] at h1 h2
      omega
    simp only [metaget1, Option.isSome_none]
    simp [h]
  | cons x t ih =>
    intro k
    have hlen : (x :: t).length = t.length + 1 := rfl
    simp only [metaget1]
    by_cases hin : 0 ≤ normIdx (x :: t).length k ∧
        normIdx (x :: t).length k < ((x :: t).length : Int)
    · rw [if_pos hin]
      by_cases h0 : normIdx (x :: t).length k = 0
      · rw [if_pos h0]
        simp only [Option.isSome_some]
        exact (decide_eq_true hin).symm
      · rw [if_neg h0]
        rw [ih (normIdx (x :: t).length k - 1)]
        rw [normIdx_nonneg t.length _ (by omega)]
        rw [decide_eq_decide]
        omega
    · rw [if_neg hin]
      simp only [Option.isSome_none]
      exact (decide_eq_false hin).symm

/-- A non-negative `metaget` index performs plain positional indexing
into the metadata pack (with `none` exactly when out of range). -/
theorem metaget1_nonneg {α : Type} :
    ∀ (xs : List α) (k : Int), 0 ≤ k →
      metaget1 xs k = xs[k.toNat]? := by
  intro xs
  induction xs with
  | nil => intro k _; rfl
  | cons x t ih =>
    intro k hk
    simp only [metaget1]
    have hni : normIdx (x :: t).length k = k := by
      unfold normIdx; rw [if_neg (by omega)]
    rw [hni]
    by_cases hin : 0 ≤ k ∧ k < ((x :: t).length : Int)
    · rw [if_pos hin]
      by_cases h0 : k = 0
      · subst h0; simp
      · rw [if_neg h0]
        rw [ih (k - 1) (by omega)]
        have hkk : k.toNat = (k - 1).toNat + 1 := by omega
        rw [hkk, List.getElem?_cons_succ]
    · rw [if_neg hin]
      have hlen : (x :: t).length ≤ k.toNat := by
        simp only [List.length_cons] at hin ⊢
        push_cast at hin
        omega
      exact (List.getElem?_eq_none hlen).symm

/-- A shape without a const no-arg call operator never satisfies `val`:
the member-pointer requirement `p = &T::operator()` has no candidate. -/
theorem valC_none (q : Shape) (h : q.callOp = none) : valC q = false := by
  obtain ⟨vt, vm, co, cv, cvc, ta, em, sc, asc, ae⟩ := q
  have hco : co = none := h
  subst hco
  cases vt <;> cases vm <;> rfl

/-- If `Q::value_type` as a return type (`asReturn`) is void then the
alias itself is (cv) void. -/
theorem removeCv_of_asReturn_void :
    ∀ vt : CType, asReturn vt = CType.voidT → vt.removeCv = CType.voidT := by
  intro vt h
  cases vt with
  | const u =>
    show u.removeCv = CType.voidT
    simp only [asReturn] at h
    cases hu : u.removeCv with
    | voidT => rfl
    | scalar n => rw [hu] at h; simp at h
    | cls c => rw [hu] at h; simp at h
    | fn r => rw [hu] at h; simp at h
    | array e n => rw [hu] at h; simp at h
    | ptr u2 => rw [hu] at h; simp at h
    | const u2 => rw [hu] at h; simp at h
    | ref u2 => rw [hu] at h; simp at h
  | voidT => rfl
  | scalar n => simp only [asReturn] at h; simp at h
  | cls c => simp only [asReturn] at h; simp at h
  | fn r => simp only [asReturn] at h; simp at h
  | array e n => simp only [asReturn] at h; simp at h
  | ptr u => simp only [asReturn] at h; simp at h
  | ref u => simp only [asReturn] at h; simp at h

/-- No class type is implicitly convertible to (cv) void. -/
theorem convertibleTo_void (l : List CType) (t : CType)
    (h : t.removeCv = CType.voidT) : convertibleTo l t = false := by
  unfold convertibleTo
  rw [h]

/-- A shape without a const no-arg call operator never satisfies
`metavalue`: the detected return type falls back to void, forcing
`value_type` to be void, and no class is convertible to void. -/
theorem metavalueC_none (q : Shape) (h : q.callOp = none) :
    metavalueC q = false := by
  obtain ⟨vt, vm, co, cv, cvc, ta, em, sc, asc, ae⟩ := q
  have hco : co = none := h
  subst hco
  cases vt with
  | none => rfl
  | some vt0 =>
    cases vm with
    | none => rfl
    | some mt0 =>
      by_cases hv : valueReturnType vt0 = CType.voidT
      · have hcv : convertibleTo cvc vt0 = false :=
          convertibleTo_void cvc vt0 (removeCv_of_asReturn_void vt0 hv)
        simp [metavalueC, functorReturnOrVoid, hcv]
      · simp [metavalueC, functorReturnOrVoid, valueReturnType] at hv ⊢
        intro _ h2
        exact absurd h2 hv

/-- Claim C1: the classification predicates are strictly nested and the
type branch is disjoint: `ps_val` implies `s_val` implies `val`,
`metaconst` implies `metastatic` implies `metavalue`, and a `typ`
(equivalently `metatype`) shape is never `val` (nor `metavalue`). -/
theorem claim_C1_classification_nested (q : Shape) :
    (ps_valC q = true → s_valC q = true) ∧
    (s_valC q = true → valC q = true) ∧
    (metaconstC q = true → metastaticC q = true) ∧
    (metastaticC q = true → metavalueC q = true) ∧
    (typC q = true → valC q = false) ∧
    (metatypeC q = true → metavalueC q = false) := by
  refine ⟨?_, ?_, ?_, ?_, ?_, ?_⟩
  · intro h
    simp only [ps_valC, Bool.and_eq_true] at h
    exact h.1
  · intro h
    simp only [s_valC, Bool.and_eq_true] at h
    exact h.1.1
  · intro h
    simp only [metaconstC, Bool.and_eq_true] at h
    exact h.1
  · intro h
    simp only [metastaticC, Bool.and_eq_true] at h
    exact h.1.1
  · intro h
    cases hco : q.callOp with
    | some r => simp [typC, vfunctor, hco] at h
    | none => exact valC_none q hco
  · intro h
    cases hco : q.callOp with
    | some r => simp [metatypeC, hco] at h
    | none => exact metavalueC_none q hco

/-- Witness for C1 at a shape modelling `pval<1>` (hence also
`integral_constant`-like) and a shape modelling `metatype<T>`. -/
theorem claim_C1_witness :
    ps_valC (⟨some (.scalar 0), some (.const (.scalar 0)), some (.scalar 0),
      [.scalar 0], [.scalar 0], true, true, true, true, true⟩ : Shape) = true ∧
    s_valC (⟨some (.scalar 0), some (.const (.scalar 0)), some (.scalar 0),
      [.scalar 0], [.scalar 0], true, true, true, true, true⟩ : Shape) = true ∧
    valC (⟨some (.scalar 0), some (.const (.scalar 0)), some (.scalar 0),
      [.scalar 0], [.scalar 0], true, true, true, true, true⟩ : Shape) = true ∧
    metaconstC (⟨some (.scalar 0), some (.const (.scalar 0)), some (.scalar 0),
      [.scalar 0], [.scalar 0], true, true, true, true, true⟩ : Shape) = true ∧
    metavalueC (⟨some (.scalar 0), some (.const (.scalar 0)), some (.scalar 0),
      [.scalar 0], [.scalar 0], true, true, true, true, true⟩ : Shape) = true ∧
    typC (⟨none, none, none, [], [], true, true, false, false, false⟩ : Shape) = true ∧
    valC (⟨none, none, none, [], [], true, true, false, false, false⟩ : Shape) = false ∧
    metavalueC (⟨none, none, none, [], [], true, true, false, false, false⟩ : Shape)
      = false := by
  have h1 := claim_C1_classification_nested
    ⟨some (.scalar 0), some (.const (.scalar 0)), some (.scalar 0),
      [.scalar 0], [.scalar 0], true, true, true, true, true⟩
  have h2 := claim_C1_classification_nested
    ⟨none, none, none, [], [], true, true, false, false, false⟩
  exact ⟨by decide,
         h1.1 (by decide),
         h1.2.1 (h1.1 (by decide)),
         by decide,
         h1.2.2.2.1 (h1.2.2.1 (by decide)),
         by decide,
         h2.2.2.2.2.1 (by decide),
         h2.2.2.2.2.2 (by decide)⟩

/-- Claim C9: for a candidate shape with no const-qualified no-argument
call operator, both return-type detectors yield the sentinel void
instead of a substitution failure, and every value predicate evaluates
to false (as a total function: no hard error), so the predicates are
usable in requires/enable-if contexts on arbitrary types. -/
theorem claim_C9_no_call_op_sentinel (q : Shape) (h : q.callOp = none) :
    functorReturnT q = CType.voidT ∧
    functorReturnOrVoid q = CType.voidT ∧
    valC q = false ∧ s_valC q = false ∧ ps_valC q = false ∧
    metavalueC q = false ∧ metastaticC q = false ∧ metaconstC q = false := by
  have hv := valC_none q h
  have hm := metavalueC_none q h
  refine ⟨?_, ?_, hv, ?_, ?_, hm, ?_, ?_⟩
  · unfold functorReturnT
    rw [h]
  · unfold functorReturnOrVoid
    rw [h]
  · simp [s_valC, hv]
  · simp [ps_valC, s_valC, hv]
  · simp [metastaticC, hm]
  · simp [metaconstC, metastaticC, hm]

/-- Witness for C9 at a shape modelling the test type
`struct voidt { using type = void; }` (no call operator at all). -/
theorem claim_C9_witness :
    (⟨none, none, none, [], [], true, true, false, false,
      false⟩ : Shape).callOp = none ∧
    valC (⟨none, none, none, [], [], true, true, false, false,
      false⟩ : Shape) = false ∧
    metavalueC (⟨none, none, none, [], [], true, true, false, false,
      false⟩ : Shape) = false := by
  have h := claim_C9_no_call_op_sentinel
    ⟨none, none, none, [], [], true, true, false, false, false⟩ rfl
  exact ⟨rfl, h.2.2.1, h.2.2.2.2.2.1⟩

/-- Heterogeneous compile-time argument values: the kinds of entities a
`decltype(auto)` NTTP pack can carry in this library (integers,
booleans, characters, and ids of static-storage variables or functions
bound by reference). -/
inductive CVal : Type where
  | intV : Int → CVal
  | boolV : Bool → CVal
  | charV : Nat → CVal
  | idV : Nat → CVal
deriving DecidableEq, Repr

/-- Positional lookup succeeds exactly within bounds. -/
theorem list_isSome_getElem {α : Type} (l : List α) (n : Nat) :
    l[n]?.isSome = true ↔ n < l.length := by
  cases Nat.lt_or_ge n l.length with
  | inl h => simp [List.getElem?_eq_getElem h, h]
  | inr h =>
    simp [List.getElem?_eq_none h]
    omega

/-- Claim C2: for every static wrapper `pval<v, x1..xn>`, `size()` is
`n+1`, `get<0>()` is the primary value `v`, and for `I` within bounds
`get<I>()` is the `I`-th element of the sequence `(v, x1, .., xn)`. -/
theorem claim_C2_pval_roundtrip (α : Type) (p : Pval α) (i : Nat) :
    p.size = p.xs.length + 1 ∧
    p.get 0 = some p.v ∧
    (i ≤ p.xs.length → p.get i = (p.v :: p.xs)[i]?) := by
  refine ⟨?_, rfl, fun _ => Pval.get_eq p i⟩
  unfold Pval.size
  omega

/-- Witness for C2 on the wrapper `pval<7, true, 3>` (heterogeneous
metadata) at index 2. -/
theorem claim_C2_witness :
    2 ≤ ([CVal.boolV true, CVal.intV 3] : List CVal).length ∧
    Pval.get ⟨CVal.intV 7, [CVal.boolV true, CVal.intV 3]⟩ 2 =
      (CVal.intV 7 :: [CVal.boolV true, CVal.intV 3])[2]? ∧
    Pval.size (⟨CVal.intV 7, [CVal.boolV true, CVal.intV 3]⟩ : Pval CVal) = 3 := by
  have h := claim_C2_pval_roundtrip CVal
    ⟨CVal.intV 7, [CVal.boolV true, CVal.intV 3]⟩ 2
  exact ⟨by decide, h.2.2 (by decide), by decide⟩

/-- Claim C6: indexed access is bounds-checked at compile time:
`get<I>` on a pval succeeds exactly for `I ≤ n` (the requires-clause
bound), and `metaget<K>` succeeds exactly when the normalized index lies
in `[0, n)`; out of range the result is a compile-time rejection
(modelled by `none`), never a runtime fault. -/
theorem claim_C6_bounds_checked (α : Type) (p : Pval α) (i : Nat)
    (xs : List α) (k : Int) :
    ((p.get i).isSome = true ↔ i ≤ p.xs.length) ∧
    ((metaget1 xs k).isSome = true ↔
      0 ≤ normIdx xs.length k ∧ normIdx xs.length k < (xs.length : Int)) := by
  constructor
  · rw [Pval.get_eq, list_isSome_getElem]
    simp only [List.length_cons]
    omega
  · rw [metaget1_isSome]
    exact decide_eq_true_iff

/-- Witness for C6: on `pval<0,1,2,3>` index 3 is in range (the bound is
inclusive of the metadata count) and on metadata `(1,2,3)` the
normalized index of 3 is out of range. -/
theorem claim_C6_witness :
    (Pval.get ⟨CVal.intV 0, [CVal.intV 1, CVal.intV 2, CVal.intV 3]⟩ 3).isSome
      = true ∧
    ¬ ((metaget1 [CVal.intV 1, CVal.intV 2, CVal.intV 3] 3).isSome = true) := by
  constructor
  · exact (claim_C6_bounds_checked CVal
      ⟨CVal.intV 0, [CVal.intV 1, CVal.intV 2, CVal.intV 3]⟩ 3
      [CVal.intV 1, CVal.intV 2, CVal.intV 3] 3).1.mpr (by decide)
  · intro h
    have := (claim_C6_bounds_checked CVal
      ⟨CVal.intV 0, [CVal.intV 1, CVal.intV 2, CVal.intV 3]⟩ 3
      [CVal.intV 1, CVal.intV 2, CVal.intV 3] 3).2.mp h
    exact absurd this (by decide)

/-- Claim C7: negative metaget indices wrap from the end: for a wrapper
with `n` trailing metadata items and `-n ≤ K < 0`, `metaget<K>()` equals
`metaget<K+n>()` (so index `-1` denotes the last item). -/
theorem claim_C7_negative_index_wraps (α : Type) (xs : List α) (k : Int)
    (h1 : -(xs.length : Int) ≤ k) (h2 : k < 0) :
    metaget1 xs k = metaget1 xs (k + xs.length) := by
  cases xs with
  | nil => rfl
  | cons x t =>
    simp only [metaget1]
    rw [normIdx_neg (x :: t).length k h2,
        normIdx_nonneg (x :: t).length (k + ((x :: t).length : Int)) (by omega)]

/-- Witness for C7 on metadata `(1,2,3)` at index `-1`, which wraps to
index 2 (the last item), mirroring the test assertions. -/
theorem claim_C7_witness :
    -((([CVal.intV 1, CVal.intV 2, CVal.intV 3] : List CVal).length : Int))
      ≤ -1 ∧
    metaget1 [CVal.intV 1, CVal.intV 2, CVal.intV 3] (-1)
      = metaget1 [CVal.intV 1, CVal.intV 2, CVal.intV 3]
          (-1 + (([CVal.intV 1, CVal.intV 2, CVal.intV 3] : List CVal).length
            : Int)) := by
  exact ⟨by decide,
    claim_C7_negative_index_wraps CVal [CVal.intV 1, CVal.intV 2, CVal.intV 3]
      (-1) (by decide) (by decide)⟩

/-- Claim C8: multi-index `metaget<I,J,...>` is a projection: the
resulting static wrapper's full argument sequence is, position by
position, the single-index `metaget` of the original metadata at the
given indices — and single-index `metaget` at a non-negative index is
plain positional indexing into the metadata pack. -/
theorem claim_C8_multi_index_projection (α : Type) (xs : List α)
    (is : List Int) (p : Pval α) (j : Nat) (k : Int)
    (hlen : 2 ≤ is.length) (hm : metagetM xs is = some p) (hk : 0 ≤ k) :
    ((p.v :: p.xs)[j]? = (is[j]?).bind (metaget1 xs)) ∧
    metaget1 xs k = xs[k.toNat]? := by
  refine ⟨?_, metaget1_nonneg xs k hk⟩
  rcases is with _ | ⟨k1, is2⟩
  · simp at hlen
  rcases is2 with _ | ⟨k2, is3⟩
  · simp at hlen
  simp only [metagetM] at hm
  by_cases h0 : xs.length = 0
  · rw [if_pos h0] at hm
    exact absurd hm (by simp)
  · rw [if_neg h0] at hm
    cases hmo : mapOpt (metaget1 xs) (k1 :: k2 :: is3) with
    | none =>
      rw [hmo] at hm
      exact absurd hm (by simp)
    | some vs =>
      rw [hmo] at hm
      cases vs with
      | nil => exact absurd hm (by simp)
      | cons v vs2 =>
        simp only [Option.some.injEq] at hm
        subst hm
        exact mapOpt_get (metaget1 xs) (k1 :: k2 :: is3) (v :: vs2) hmo j

/-- Witness for C8, mirroring the test: `metaget<2,1,0>` on the metadata
`(1,2,3)` of `staticmeta<0,1,2,3>` yields `staticmeta<3,2,1>`, and its
position-0 element is the original element at index 2. -/
theorem claim_C8_witness :
    metagetM [CVal.intV 1, CVal.intV 2, CVal.intV 3] [2, 1, 0]
      = some ⟨CVal.intV 3, [CVal.intV 2, CVal.intV 1]⟩ ∧
    ((Pval.mk (CVal.intV 3) [CVal.intV 2, CVal.intV 1]).v ::
      (Pval.mk (CVal.intV 3) [CVal.intV 2, CVal.intV 1]).xs)[0]?
      = (([2, 1, 0] : List Int)[0]?).bind
          (metaget1 [CVal.intV 1, CVal.intV 2, CVal.intV 3]) ∧
    metaget1 [CVal.intV 1, CVal.intV 2, CVal.intV 3] 2
      = [CVal.intV 1, CVal.intV 2, CVal.intV 3][(2 : Int).toNat]? := by
  have h := claim_C8_multi_index_projection CVal
    [CVal.intV 1, CVal.intV 2, CVal.intV 3] [2, 1, 0]
    ⟨CVal.intV 3, [CVal.intV 2, CVal.intV 1]⟩ 0 2
    (by decide) (by decide) (by decide)
  exact ⟨by decide, h.1, h.2⟩

/-- Claim C10: a `metatype<T, x1..xn>` reports `size() = n+1` (the
primary slot is counted) yet its `get` accessor requires `1 ≤ I ≤ n`:
`get<0>` is ill-formed, the accessor succeeds exactly on `1 ≤ I ≤ n`,
and a metatype with no metadata admits no `get<I>` at all. -/
theorem claim_C10_metatype_no_index_zero (α : Type) (m : MetatypeW α)
    (i : Nat) :
    m.size = m.xs.length + 1 ∧
    m.get 0 = none ∧
    ((m.get i).isSome = true ↔ 1 ≤ i ∧ i ≤ m.xs.length) ∧
    (m.xs = [] → m.get i = none) := by
  refine ⟨?_, ?_, ⟨?_, ?_⟩, ?_⟩
  · unfold MetatypeW.size
    omega
  · unfold MetatypeW.get
    rw [if_neg (by omega)]
  · intro h
    by_cases hc : 0 < i ∧ i ≤ m.xs.length
    · exact ⟨hc.1, hc.2⟩
    · unfold MetatypeW.get at h
      rw [if_neg hc] at h
      simp at h
  · rintro ⟨h1, h2⟩
    unfold MetatypeW.get
    rw [if_pos ⟨h1, h2⟩]
    cases hxs : m.xs with
    | nil =>
      rw [hxs] at h2
      simp at h2
      omega
    | cons x t =>
      show ((⟨x, t⟩ : Pval α).get (i - 1)).isSome = true
      rw [Pval.get_eq, list_isSome_getElem]
      rw [hxs] at h2
      simp only [List.length_cons] at h2 ⊢
      omega
  · intro hx
    unfold MetatypeW.get
    rw [hx]
    rw [if_neg (by rintro ⟨a, b⟩; simp at b; omega)]

/-- Witness for C10 on `metatype<T, 1, 2, 3>`: index 0 is rejected,
index 2 is accepted. -/
theorem claim_C10_witness :
    MetatypeW.get ⟨CType.cls 0, [CVal.intV 1, CVal.intV 2, CVal.intV 3]⟩ 0
      = none ∧
    (MetatypeW.get ⟨CType.cls 0, [CVal.intV 1, CVal.intV 2, CVal.intV 3]⟩
      2).isSome = true := by
  have h2 := claim_C10_metatype_no_index_zero CVal
    ⟨CType.cls 0, [CVal.intV 1, CVal.intV 2, CVal.intV 3]⟩ 2
  exact ⟨h2.2.1, h2.2.2.1.mpr (by decide)⟩

/-- `removeCv` never returns a const-qualified type. -/
theorem removeCv_not_const : ∀ a : CType, (a.removeCv).isConstQ = false := by
  intro a
  induction a with
  | const t ih => exact ih
  | scalar n => rfl
  | voidT => rfl
  | cls c => rfl
  | fn r => rfl
  | array u n => rfl
  | ptr u => rfl
  | ref u => rfl

/-- The C3 claim as stated, formalized from its words (for refutation,
not from the source): a pval instantiation with a non-const-reference
metadata item fails to compile, i.e. every accepted instantiation has
const-if-reference arguments throughout. -/
def specC3 : Prop :=
  ∀ (vt : CType) (xts : List CType),
    pvalInstOK vt xts = true →
      const_if_reference vt = true ∧
      ∀ t ∈ xts, const_if_reference t = true

/-- Counterexample to C3: `pval<1, (g)>` with `g` a mutable global int —
primary value of type int, metadata of type `int&` — is accepted by the
requires-clause (which checks only `decltype(v)`), yet `int&` is a
non-const reference; so the claim, which says such an instantiation
fails to compile, is false. -/
theorem claim_C3_counterexample :
    pvalInstOK (.scalar 0) [.ref (.scalar 0)] = true ∧
    const_if_reference (.ref (.scalar 0)) = false ∧
    ¬ specC3 := by
  refine ⟨by decide, by decide, fun h => ?_⟩
  have h2 := (h (.scalar 0) [.ref (.scalar 0)] (by decide)).2
    (.ref (.scalar 0)) (by decide)
  exact absurd h2 (by decide)

/-- Claim C3 (amended): instantiating pval with a non-const reference as
the primary value `v` fails to compile, but the trailing metadata
`x...` are not subject to the const-if-reference rule at instantiation:
`pval<v, x...>` is accepted exactly when every argument type is a valid
`decltype(auto)` NTTP type and `decltype(v)` is const-if-reference —
regardless of the const-ness of reference-typed metadata. -/
theorem claim_C3_const_if_ref_primary_only (vt : CType) (xts : List CType) :
    pvalInstOK vt xts = true ↔
      (validNTTP vt = true ∧ (∀ t ∈ xts, validNTTP t = true) ∧
       const_if_reference vt = true) := by
  unfold pvalInstOK
  rw [Bool.and_eq_true, Bool.and_eq_true, List.all_eq_true]
  tauto

/-- Witness for the amended C3: `pval<(k), (g)>` with `k` a constexpr
int (metadata `int&` of a mutable global) is accepted. -/
theorem claim_C3_witness :
    validNTTP (.const (.scalar 0)) = true ∧
    const_if_reference (.const (.scalar 0)) = true ∧
    pvalInstOK (.const (.scalar 0)) [.ref (.scalar 0)] = true := by
  refine ⟨by decide, by decide, ?_⟩
  exact (claim_C3_const_if_ref_primary_only (.const (.scalar 0))
    [.ref (.scalar 0)]).mpr ⟨by decide, by decide, by decide⟩

/-- The C4 claim as stated, formalized from its words (for refutation):
a non-const reference `T` is accepted as the dval primary value type,
and any non-const-reference metadata item is rejected at
instantiation. -/
def specC4 : Prop :=
  (∀ (t : CType) (xts : List CType),
    dvalInstOK t xts = true → ∀ u ∈ xts, const_if_reference u = true) ∧
  dvalInstOK (.ref (.scalar 0)) [] = true

/-- Counterexample to C4: the code is the exact opposite of the claim —
`dval<int&>` is rejected (the requires-clause checks
`const_if_reference<T>` on the primary value type) while
`dval<int, (g)>` with a non-const `int&` metadata item is accepted (the
metadata are unchecked at instantiation). -/
theorem claim_C4_counterexample :
    dvalInstOK (.ref (.scalar 0)) [] = false ∧
    dvalInstOK (.scalar 0) [.ref (.scalar 0)] = true ∧
    const_if_reference (.ref (.scalar 0)) = false ∧
    ¬ specC4 := by
  refine ⟨by decide, by decide, by decide, fun h => ?_⟩
  exact absurd h.2 (by decide)

/-- Claim C4 (amended): `dval<T, x...>` applies the const-if-reference
rule to its primary value type `T` — a non-const reference `T` is
rejected at instantiation — while the trailing metadata arguments are
not checked for const-if-reference at instantiation: any valid
`decltype(auto)` NTTP argument, including a non-const reference, is
accepted. -/
theorem claim_C4_dval_checks_primary (t : CType) (xts : List CType) :
    (dvalInstOK t xts = true → const_if_reference t = true) ∧
    (dvalInstOK t xts = true ↔
      (dvalValid t = true ∧ ∀ u ∈ xts, validNTTP u = true)) := by
  constructor
  · intro h
    simp only [dvalInstOK, dvalValid, Bool.and_eq_true] at h
    exact h.1.1.1
  · unfold dvalInstOK
    rw [Bool.and_eq_true, List.all_eq_true]

/-- Witness for the amended C4: `dval<int const&, (g)>` — const
reference primary, non-const reference metadata — is accepted, and the
primary value type of any accepted instantiation is const-if-reference. -/
theorem claim_C4_witness :
    dvalInstOK (.ref (.const (.scalar 0))) [.ref (.scalar 0)] = true ∧
    const_if_reference (.ref (.const (.scalar 0))) = true := by
  have h := claim_C4_dval_checks_primary (.ref (.const (.scalar 0)))
    [.ref (.scalar 0)]
  have hacc := h.2.mpr ⟨by decide, by decide⟩
  exact ⟨hacc, h.1 hacc⟩

/-- The deduced dval type according to C5's words (for refutation, not
from the source): a function-typed argument deduces to a reference to
the function, anything else to its own decayed non-reference type. -/
def specC5deduced (a : CType) : CType :=
  if a.isFunT then .ref a else decayT a

/-- Whether construction compiles according to C5's words: exactly when
the deduced type is not an array type. -/
def specC5ok (a : CType) : Bool := !(specC5deduced a).isArrayT

/-- The C5 claim as stated, formalized from its words. -/
def specC5 : Prop :=
  ∀ a : CType, a.isRef = false →
    (dvalConstructOK a = specC5ok a) ∧
    (dvalConstructOK a = true → dvalDeduce a = specC5deduced a)

/-- Counterexample to C5: for a function-typed argument the claim
predicts deduction to a function reference and successful construction,
but the deduction guide `dval(T const&) -> dval<T>` deduces the function
type itself, and the resulting `dval<F>` fails to compile (a data member
cannot have function type) — so constructing a dval from a function does
not compile at all. -/
theorem claim_C5_counterexample :
    specC5ok (.fn (.scalar 0)) = true ∧
    specC5deduced (.fn (.scalar 0)) = .ref (.fn (.scalar 0)) ∧
    dvalDeduce (.fn (.scalar 0)) = .fn (.scalar 0) ∧
    dvalConstructOK (.fn (.scalar 0)) = false ∧
    ¬ specC5 := by
  refine ⟨by decide, by decide, by decide, by decide, fun h => ?_⟩
  have h2 := (h (.fn (.scalar 0)) (by decide)).1
  exact absurd h2 (by decide)

/-- Claim C5 (amended): the deduction guide binds the argument by
reference to const, deducing the argument's own cv-stripped type with
no array or function decay; construction then compiles exactly when
that type is neither an array type (the call operator cannot return an
array) nor a function type (a data member cannot have function type). -/
theorem claim_C5_deduce_no_decay (a : CType)
    (h1 : (a.removeCv).isRef = false) (h2 : a.removeCv ≠ CType.voidT) :
    dvalConstructOK a =
      (!(a.removeCv).isArrayT && !(a.removeCv).isFunT) := by
  show dvalValid a.removeCv = _
  have hnc := removeCv_not_const a
  cases hb : a.removeCv with
  | const u =>
    rw [hb] at hnc
    simp [CType.isConstQ] at hnc
  | ref u =>
    rw [hb] at h1
    simp [CType.isRef] at h1
  | voidT => exact absurd hb h2
  | scalar n =>
    simp [dvalValid, const_if_reference, CType.isRef, CType.removeRef,
      CType.isConstQ, validDataMember, validReturnType, CType.isArrayT,
      CType.isFunT]
  | cls c =>
    simp [dvalValid, const_if_reference, CType.isRef, CType.removeRef,
      CType.isConstQ, validDataMember, validReturnType, CType.isArrayT,
      CType.isFunT]
  | ptr u =>
    simp [dvalValid, const_if_reference, CType.isRef, CType.removeRef,
      CType.isConstQ, validDataMember, validReturnType, CType.isArrayT,
      CType.isFunT]
  | fn r =>
    simp [dvalValid, const_if_reference, CType.isRef, CType.removeRef,
      CType.isConstQ, validDataMember, validReturnType, CType.isArrayT,
      CType.isFunT]
  | array u n =>
    simp [dvalValid, const_if_reference, CType.isRef, CType.removeRef,
      CType.isConstQ, validDataMember, validReturnType, CType.isArrayT,
      CType.isFunT]

/-- Witness for the amended C5: constructing from an int argument
deduces int and compiles. -/
theorem claim_C5_witness :
    (CType.removeCv (.scalar 0)).isRef = false ∧
    dvalConstructOK (.scalar 0)
      = (!(CType.removeCv (.scalar 0)).isArrayT
         && !(CType.removeCv (.scalar 0)).isFunT) ∧
    dvalConstructOK (.scalar 0) = true := by
  exact ⟨by decide,
    claim_C5_deduce_no_decay (.scalar 0) (by decide) (by decide),
    by decide⟩
